import Mathlib

/-!
Shallow embedding of the requirements-to-test-case synchronization engine:
the versioned test-case manager (`src/core/test-case-manager.js`), the
requirements merge of the discovery component, and the adaptive pattern
learner (fingerprinting and learned-pattern application), translated from
the JavaScript source.  File-system reads/writes and the external oracle
are modelled by explicit parameters and event traces; JavaScript numbers
appearing in version strings are modelled by `Option Nat`, with `none`
standing for NaN.
-/

/-- One decimal digit as a character: `digitChar 3 = '3'`. -/
def digitChar (n : Nat) : Char := Char.ofNat (48 + n)

/-- Decimal digits of a natural number, most significant first; the first
argument is fuel bounding recursion depth (kept structural so that kernel
evaluation works).  With fuel `n + 1` this is the JavaScript rendering
`String(n)` of a nonnegative integer. -/
def natDigsAux : Nat → Nat → List Char
  | 0, _ => []
  | fuel + 1, n =>
    if n < 10 then [digitChar n] else natDigsAux fuel (n / 10) ++ [digitChar (n % 10)]

/-- JavaScript `String(n)` for a nonnegative integer `n`. -/
def natStr (n : Nat) : String := String.mk (natDigsAux (n + 1) n)

/-- Model of JavaScript `Number(s)` restricted to the canonical nonnegative
decimal strings this program produces for version components; every other
string is treated as NaN (`none`). -/
def jsNumber (s : String) : Option Nat :=
  if s.data ≠ [] ∧ s.data.all Char.isDigit then
    some (s.data.foldl (fun n c => n * 10 + (c.toNat - 48)) 0)
  else none

/-- Character-level model of JavaScript `s.split('.')`: a dot opens a new
chunk, any other character is prepended to the first chunk of the split of
the rest (which is always nonempty). -/
def splitDotAux : List Char → List (List Char)
  | [] => [[]]
  | c :: rest =>
    if c = '.' then [] :: splitDotAux rest
    else
      let r := splitDotAux rest
      (c :: r.headD []) :: r.tail

/-- `s.split('.')` as a list of strings. -/
def splitVer (s : String) : List String := (splitDotAux s.data).map String.mk

/-- The `i`-th component of `v.split('.').map(Number)`; `none` models NaN,
including the NaN obtained by destructuring past the end of the array. -/
def verComp (parts : List String) (i : Nat) : Option Nat :=
  match parts[i]? with
  | some t => jsNumber t
  | none => none

/-- Rendering of a JavaScript number inside a template literal: NaN prints
as `"NaN"`. -/
def showJsNum : Option Nat → String
  | some n => natStr n
  | none => "NaN"

/-- `getNextVersion` from `test-case-manager.js`: a missing (falsy) or
`0.0.0` version maps to `1.0.0`; otherwise the patch component of
`major.minor.patch` is incremented. -/
def getNextVersion (currentVersion : String) : String :=
  if currentVersion = "" ∨ currentVersion = "0.0.0" then "1.0.0"
  else
    let parts := splitVer currentVersion
    showJsNum (verComp parts 0) ++ "." ++ showJsNum (verComp parts 1) ++ "." ++
      showJsNum ((verComp parts 2).map (· + 1))

/-- One component step of `compareVersions`: `some r` when `aC !== bC`, so the
comparison returns `r` (`r = none` models a NaN result, which happens as soon
as either side is NaN); `none` when the components are equal numbers and the
comparison continues with the next component. -/
def verCompStep : Option Nat → Option Nat → Option (Option Int)
  | some x, some y => if x = y then none else some (some ((x : Int) - (y : Int)))
  | _, _ => some none

/-- `compareVersions` from `test-case-manager.js`; the result `none` models
NaN, `some r` an ordinary numeric result `r`. -/
def compareVersions (a b : String) : Option Int :=
  if a = "" then some (-1)
  else if b = "" then some 1
  else
    let pa := splitVer a
    let pb := splitVer b
    match verCompStep (verComp pa 0) (verComp pb 0) with
    | some r => r
    | none =>
      match verCompStep (verComp pa 1) (verComp pb 1) with
      | some r => r
      | none =>
        match verComp pa 2, verComp pb 2 with
        | some x, some y => some ((x : Int) - (y : Int))
        | _, _ => none

/-- Recognizer for version strings of the canonical form `major.minor.patch`
with nonnegative decimal components (the only versions the manager ever
writes). -/
def parseVer (s : String) : Option (Nat × Nat × Nat) :=
  match splitVer s with
  | [a, b, c] =>
    match jsNumber a, jsNumber b, jsNumber c with
    | some x, some y, some z => some (x, y, z)
    | _, _, _ => none
  | _ => none

/-- A raw test-case object as it appears in a parsed oracle (Claude) reply.
Every field may be absent or `null` (`none`); string-valued fields that are
present are modelled as strings, `steps`/`tags` as `some l` exactly when the
supplied value is an array (`Array.isArray`), `none` otherwise. -/
structure RawCase where
  id : Option String := none
  title : Option String := none
  description : Option String := none
  priority : Option String := none
  category : Option String := none
  status : Option String := none
  addedIn : Option String := none
  lastModified : Option String := none
  steps : Option (List String) := none
  expectedResult : Option String := none
  tags : Option (List String) := none
  changes : Option String := none
deriving DecidableEq, Repr

/-- A validated test-case record as produced by `parseAndValidateTestCases`
and stored in a `TestSuiteVersion` document. -/
structure TestCase where
  id : String
  title : String
  description : String
  priority : String
  category : String
  status : String
  addedIn : String
  lastModified : String
  steps : List String
  expectedResult : String
  tags : List String
  changes : Option String
deriving DecidableEq, Repr

/-- The `metadata` block of a test-suite document. -/
structure SuiteMetadata where
  totalTestCases : Nat
  newTestCases : Nat
  updatedTestCases : Nat
  deprecatedTestCases : Nat
  changesSummary : List String
deriving DecidableEq, Repr

/-- The all-zero metadata block the code seeds `result.metadata` with. -/
def zeroMetadata : SuiteMetadata :=
  { totalTestCases := 0, newTestCases := 0, updatedTestCases := 0,
    deprecatedTestCases := 0, changesSummary := [] }

/-- The `requirements` block written into a test-suite document by
`updateTestCases` (field `lastAnalyzed` carries the run timestamp). -/
structure ReqBlock where
  sources : List String
  lastAnalyzed : String
  functional : List String
  businessRules : List String
  userWorkflows : List String
  performance : List String
  accessibility : List String
deriving DecidableEq, Repr

/-- A test-suite document (`TestSuiteVersion`): the JSON object stored at
`test-cases/<page>-test-cases.json`.  `pageName` is `Option` because a loaded
document may lack the field; `requirements := none` models the empty object
`{}` the sentinel document carries. -/
structure TestDoc where
  version : String
  lastUpdated : String
  pageName : Option String
  requirements : Option ReqBlock
  testCases : List TestCase
  metadata : SuiteMetadata
deriving DecidableEq, Repr

/-- JavaScript `x || d` for an optional string `x`: absent, `null` and the
empty string are falsy and give the default. -/
def jsOrS : Option String → String → String
  | some s, d => if s = "" then d else s
  | none, d => d

/-- `existing.pageName?.toUpperCase() || 'PAGE'`. -/
def pageTag : Option String → String
  | some p => if p.toUpper = "" then "PAGE" else p.toUpper
  | none => "PAGE"

/-- `String(n).padStart(3, '0')`. -/
def pad3 (n : Nat) : String :=
  let s := natStr n
  if s.length ≥ 3 then s
  else String.mk (List.replicate (3 - s.length) '0') ++ s

/-- Validation and default-filling of one raw case, exactly the object
literal built inside the `parsed.map` of `parseAndValidateTestCases`;
`i` is the zero-based map index and `ver` the existing document's version. -/
def validateCase (pn : Option String) (ver : String) (i : Nat) (c : RawCase) : TestCase :=
  { id := jsOrS c.id (pageTag pn ++ "-" ++ pad3 (i + 1))
    title := jsOrS c.title "Untitled Test Case"
    description := jsOrS c.description ""
    priority := jsOrS c.priority "medium"
    category := jsOrS c.category "functional"
    status := jsOrS c.status "new"
    addedIn := jsOrS c.addedIn (getNextVersion ver)
    lastModified := jsOrS c.lastModified (getNextVersion ver)
    steps := match c.steps with
      | some l => l
      | none => ["Add test steps"]
    expectedResult := jsOrS c.expectedResult "Define expected result"
    tags := match c.tags with
      | some l => l
      | none => []
    changes := match c.changes with
      | some s => if s = "" then none else some s
      | none => none }

/-- An element of a parsed JSON array: `jnull` stands for a value on which
property access throws (null/undefined), `jobj c` for any other value, whose
property reads are collected in `c`. -/
inductive JElem where
  | jnull : JElem
  | jobj : RawCase → JElem
deriving DecidableEq, Repr

/-- Outcome of `JSON.parse` on the cleaned oracle reply: the parse threw,
it produced a non-array value, or it produced an array of elements. -/
inductive ParsedReply where
  | parseFail : ParsedReply
  | notArray : ParsedReply
  | array : List JElem → ParsedReply
deriving DecidableEq, Repr

/-- `true` exactly on elements whose property access does not throw. -/
def isObjElem : JElem → Bool
  | JElem.jnull => false
  | JElem.jobj _ => true

/-- A reply is well formed when it parsed as an array and mapping the
validator over it completes without throwing. -/
def wellFormedReply : ParsedReply → Bool
  | ParsedReply.array elems => elems.all isObjElem
  | _ => false

/-- The underlying raw case of a non-null element (only ever applied under
an `isObjElem` guard). -/
def elemCase : JElem → RawCase
  | JElem.jnull => {}
  | JElem.jobj c => c

/-- `parsed.map((testCase, index) => ...)` with explicit index threading. -/
def validateAll (pn : Option String) (ver : String) : Nat → List JElem → List TestCase
  | _, [] => []
  | i, e :: rest => validateCase pn ver i (elemCase e) :: validateAll pn ver (i + 1) rest

/-- The catch branch of `parseAndValidateTestCases`: re-emit the existing
test cases with only `lastModified` bumped to the next version. -/
def fallbackCases (existing : TestDoc) : List TestCase :=
  existing.testCases.map fun tc => { tc with lastModified := getNextVersion existing.version }

/-- `parseAndValidateTestCases` from `test-case-manager.js`.  A parse throw,
a non-array value, or a throw while mapping the validator (a null element)
all land in the catch branch and produce the fallback. -/
def parseAndValidateTestCases (reply : ParsedReply) (existing : TestDoc) : List TestCase :=
  match reply with
  | ParsedReply.array elems =>
    if elems.all isObjElem then validateAll existing.pageName existing.version 0 elems
    else fallbackCases existing
  | _ => fallbackCases existing

/-- The raw requirements record handed to `updateTestCases` (each field may
be absent). -/
structure RawReq where
  sources : Option (List String) := none
  functional : Option (List String) := none
  businessRules : Option (List String) := none
  userWorkflows : Option (List String) := none
  performance : Option (List String) := none
  accessibility : Option (List String) := none
deriving DecidableEq, Repr

/-- The `requirements` object literal built inside `updateTestCases`
(`newRequirements.sources || []` etc.; an empty array is truthy in
JavaScript, so `Option.getD` is the faithful model). -/
def buildReqBlock (newReq : RawReq) (now : String) : ReqBlock :=
  { sources := newReq.sources.getD []
    lastAnalyzed := now
    functional := newReq.functional.getD []
    businessRules := newReq.businessRules.getD []
    userWorkflows := newReq.userWorkflows.getD []
    performance := newReq.performance.getD []
    accessibility := newReq.accessibility.getD [] }

/-- JavaScript truthiness of the stored `changes` field. -/
def truthyChanges : Option String → Bool
  | some s => s ≠ ""
  | none => false

/-- `calculateMetadata` from `test-case-manager.js`.  The JavaScript `Set`s
are used only through `.has`, so list membership is the faithful model. -/
def calculateMetadata (existing updated : TestDoc) : SuiteMetadata :=
  let existingIds := existing.testCases.map (·.id)
  let newTestCases :=
    (updated.testCases.filter fun tc => tc.status = "new" ∨ ¬ tc.id ∈ existingIds).length
  let updatedTestCases :=
    (updated.testCases.filter fun tc => tc.status = "updated" ∧ tc.id ∈ existingIds).length
  let deprecatedTestCases :=
    (updated.testCases.filter fun tc => tc.status = "deprecated").length
  let changesSummary :=
    (updated.testCases.filter fun tc => truthyChanges tc.changes).map
      fun tc => tc.id ++ ": " ++ tc.changes.getD ""
  { totalTestCases := updated.testCases.length
    newTestCases := newTestCases
    updatedTestCases := updatedTestCases
    deprecatedTestCases := deprecatedTestCases
    changesSummary := changesSummary }

/-- The `newCount` formula as the diff-metadata claim words it ("the number
of ids present only in the new list that have status=new"): a case counts
only when its status is `new` AND its id is absent from the old list.  This
follows the claim text, for comparison against `calculateMetadata`. -/
def claimNewCount (existing updated : TestDoc) : Nat :=
  (updated.testCases.filter fun tc =>
    tc.status = "new" ∧ ¬ tc.id ∈ existing.testCases.map (·.id)).length

/-- The pure core of `updateTestCases`: the document built from the existing
document, the new requirements, the parsed oracle reply and the run
timestamp `now` (the `result` object with its metadata recalculated). -/
def updateTestCasesCore (pageName : String) (existing : TestDoc) (newReq : RawReq)
    (reply : ParsedReply) (now : String) : TestDoc :=
  let result : TestDoc :=
    { version := getNextVersion existing.version
      lastUpdated := now
      pageName := some pageName
      requirements := some (buildReqBlock newReq now)
      testCases := parseAndValidateTestCases reply existing
      metadata := zeroMetadata }
  { result with metadata := calculateMetadata existing result }

/-- The sentinel document `loadExistingTestCases` returns for a new page or
on any read/parse failure. -/
def sentinelDoc (pageName now : String) : TestDoc :=
  { version := "0.0.0"
    lastUpdated := now
    pageName := some pageName
    requirements := none
    testCases := []
    metadata := zeroMetadata }

/-- `loadExistingTestCases` from `test-case-manager.js`.  `readContent` is
the outcome of `fs.readFile` (`none` = missing/unreadable file) and
`parseDoc` the outcome of `JSON.parse` plus field reads on the stored
string; any failure lands in the catch branch and yields the sentinel. -/
def loadExistingTestCases (pageName now : String) (readContent : Option String)
    (parseDoc : String → Option TestDoc) : TestDoc :=
  match readContent with
  | none => sentinelDoc pageName now
  | some content =>
    match parseDoc content with
    | none => sentinelDoc pageName now
    | some doc => doc

/-- `new Date().toISOString().replace(/[:.]/g, '-')`. -/
def sanitizeTimestamp (s : String) : String :=
  String.mk (s.data.map fun c => if c = ':' ∨ c = '.' then '-' else c)

/-- The backup file name built by `createBackup`. -/
def backupFileName (pageName now : String) : String :=
  pageName ++ "-backup-" ++ sanitizeTimestamp now ++ ".json"

/-- File-system effects of one `updateTestCases` run, in program order. -/
inductive FsEvent where
  | readCurrentDoc : FsEvent
  | writeBackup : String → TestDoc → FsEvent
  | callOracle : FsEvent
  | writeCurrentDoc : TestDoc → FsEvent
  | writeVersionSnapshot : String → TestDoc → FsEvent
  | writeRequirements : FsEvent
deriving DecidableEq, Repr

/-- Effect trace of `updateTestCases`: `existing` is the loaded document,
`backupOk` whether the backup write succeeds (a failed backup write makes
the awaited `createBackup` throw, aborting the run), `oracleReply` is
`none` when the awaited oracle call itself throws, otherwise the parse
outcome of its reply.  Returns the ordered effect trace and the produced
document (`none` when the run aborts). -/
def updateTestCasesRun (pageName : String) (existing : TestDoc) (newReq : RawReq)
    (backupOk : Bool) (oracleReply : Option ParsedReply) (now : String) :
    List FsEvent × Option TestDoc :=
  if existing.testCases.length > 0 ∧ ¬ backupOk then
    ([FsEvent.readCurrentDoc], none)
  else
    let preEvents :=
      if existing.testCases.length > 0 then
        [FsEvent.readCurrentDoc, FsEvent.writeBackup (backupFileName pageName now) existing]
      else [FsEvent.readCurrentDoc]
    match oracleReply with
    | none => (preEvents ++ [FsEvent.callOracle], none)
    | some reply =>
      let result := updateTestCasesCore pageName existing newReq reply now
      (preEvents ++
        [FsEvent.callOracle,
         FsEvent.writeCurrentDoc result,
         FsEvent.writeVersionSnapshot (pageName ++ "-v" ++ result.version ++ ".json") result,
         FsEvent.writeRequirements],
       some result)

/-- A partial requirements record returned by one discovery extractor;
absent fields are `none` (falsy, so skipped by the merge's `if` guards). -/
structure PartialReq where
  source : Option String := none
  functional : Option (List String) := none
  businessRules : Option (List String) := none
  userWorkflows : Option (List String) := none
  performance : Option (List String) := none
  accessibility : Option (List String) := none
deriving DecidableEq, Repr

/-- First-occurrence deduplication with an accumulator of already-seen
strings: the observable behavior of `[...new Set(arr)]`. -/
def dedupSeen (seen : List String) : List String → List String
  | [] => []
  | a :: l => if a ∈ seen then dedupSeen seen l else a :: dedupSeen (a :: seen) l

/-- `[...new Set(arr)]`: deduplication keeping the first occurrence of each
string. -/
def jsSetDedup (l : List String) : List String := dedupSeen [] l

/-- Character-level model of JavaScript `s.trim()`. -/
def jsTrim (s : String) : String :=
  String.mk (((s.data.dropWhile Char.isWhitespace).reverse.dropWhile Char.isWhitespace).reverse)

/-- The per-field post-processing of `mergeRequirements`:
`[...new Set(merged[key])].filter(req => req && req.trim().length > 0)`. -/
def dedupeClean (l : List String) : List String :=
  (jsSetDedup l).filter fun s => s ≠ "" ∧ (jsTrim s).length > 0

/-- Concatenation of one field across all partials, in order, skipping falsy
(absent) fields — the `push(...)` loop of `mergeRequirements`. -/
def concatField (f : PartialReq → Option (List String)) (sources : List PartialReq) :
    List String :=
  (sources.filterMap f).flatten

/-- The merged requirements record produced by
`RequirementsDiscovery.mergeRequirements`; `now` is the run timestamp. -/
structure MergedReq where
  sources : List String
  lastUpdated : String
  functional : List String
  businessRules : List String
  userWorkflows : List String
  performance : List String
  accessibility : List String
deriving DecidableEq, Repr

/-- `mergeRequirements(sources)` from the requirements-discovery component:
`sources.map(s => s.source).filter(Boolean)` for the source names, then for
each of the five requirement fields concatenation in order followed by
Set-deduplication and dropping of blank/whitespace-only entries. -/
def mergeRequirements (now : String) (sources : List PartialReq) : MergedReq :=
  { sources := (sources.filterMap (·.source)).filter (· ≠ "")
    lastUpdated := now
    functional := dedupeClean (concatField (·.functional) sources)
    businessRules := dedupeClean (concatField (·.businessRules) sources)
    userWorkflows := dedupeClean (concatField (·.userWorkflows) sources)
    performance := dedupeClean (concatField (·.performance) sources)
    accessibility := dedupeClean (concatField (·.accessibility) sources) }

/-- The five requirement-category field lists of a merged record, the
"field lists" the idempotent-merge property speaks about. -/
def mergedFields (m : MergedReq) : List (List String) :=
  [m.functional, m.businessRules, m.userWorkflows, m.performance, m.accessibility]

/-- A learned pattern rule (`{name, regex, confidence, ...}`). -/
structure PatternRule where
  name : String
  regex : String
  confidence : String
deriving DecidableEq, Repr

/-- One entry pushed into an analysis category when a rule matches.  The
source field `matches` is rendered `matchCount` (a reserved word here). -/
structure PatternHit where
  pattern : String
  matchCount : Nat
  confidence : String
  file : String
  examples : List String
deriving DecidableEq, Repr

/-- The regex engine is abstracted as a compile function: `rx r = none`
models `new RegExp(r, 'gi')` throwing, `rx r = some m` a compiled regex
whose `content.match(...) || []` result is `m content`. -/
def RegexEngine : Type := String → Option (String → List String)

/-- The body of the inner rule loop of
`AdaptivePatternLearner.analyzeCodeWithLearnedPatterns`, threading the
accumulated hits and the accumulated warning log.  The catch branch of the
source contains only a comment, so it appends nothing to the log. -/
def applyPatternRule (rx : RegexEngine) (content filePath : String)
    (acc : List PatternHit × List String) (p : PatternRule) :
    List PatternHit × List String :=
  match rx p.regex with
  | some m =>
    let ms := m content
    if ms.length > 0 then
      (acc.1 ++ [{ pattern := p.name, matchCount := ms.length, confidence := p.confidence,
                   file := filePath, examples := ms.take 3 }], acc.2)
    else acc
  | none => (acc.1, acc.2 ++ [])

/-- The rule loop over one category's pattern list, returning the hits
pushed into `analysis[category]` and the warnings logged while doing so. -/
def applyPatternRules (rx : RegexEngine) (content filePath : String)
    (rules : List PatternRule) : List PatternHit × List String :=
  rules.foldl (applyPatternRule rx content filePath) ([], [])

/-- The category loop of `analyzeCodeWithLearnedPatterns` over the learned
pattern set (category name paired with its rule list); the source also
pre-seeds five fixed empty categories in the result object, which adds no
hits and is omitted here.  Returns the per-category hits and the
concatenated warning log. -/
def analyzeCodeWithLearnedPatterns (rx : RegexEngine) (content filePath : String)
    (learned : List (String × List PatternRule)) :
    List (String × List PatternHit) × List String :=
  ((learned.map fun cat => (cat.1, (applyPatternRules rx content filePath cat.2).1)),
   (learned.map fun cat => (applyPatternRules rx content filePath cat.2).2).flatten)

/-- A parsed `package.json` as far as the fingerprint reads it: the
dependency and dev-dependency maps, as association lists in object-key
order (JSON object keys are unique). -/
structure PackageJson where
  dependencies : List (String × String) := []
  devDependencies : List (String × String) := []
deriving DecidableEq, Repr

/-- `Object.keys(m).sort()`: the key names sorted lexicographically. -/
def sortedDepNames (m : List (String × String)) : List String :=
  List.insertionSort (fun a b => a ≤ b) (m.map Prod.fst)

/-- The standard base64 alphabet. -/
def b64Alphabet : List Char :=
  "ABCDEFGHIJKLMNOPQRSTUVWXYZabcdefghijklmnopqrstuvwxyz0123456789+/".data

/-- base64 of a byte list, three bytes at a time with `=` padding. -/
def b64Chunks : List Nat → List Char
  | [] => []
  | [b1] =>
    [b64Alphabet.getD (b1 / 4) 'A', b64Alphabet.getD (b1 % 4 * 16) 'A', '=', '=']
  | [b1, b2] =>
    [b64Alphabet.getD (b1 / 4) 'A', b64Alphabet.getD (b1 % 4 * 16 + b2 / 16) 'A',
     b64Alphabet.getD (b2 % 16 * 4) 'A', '=']
  | b1 :: b2 :: b3 :: rest =>
    b64Alphabet.getD (b1 / 4) 'A' :: b64Alphabet.getD (b1 % 4 * 16 + b2 / 16) 'A' ::
      b64Alphabet.getD (b2 % 16 * 4 + b3 / 64) 'A' :: b64Alphabet.getD (b3 % 64) 'A' ::
        b64Chunks rest

/-- UTF-8 encoding of one character as byte values. -/
def utf8Bytes (c : Char) : List Nat :=
  let n := c.toNat
  if n < 128 then [n]
  else if n < 2048 then [192 + n / 64, 128 + n % 64]
  else if n < 65536 then [224 + n / 4096, 128 + n / 64 % 64, 128 + n % 64]
  else [240 + n / 262144, 128 + n / 4096 % 64, 128 + n / 64 % 64, 128 + n % 64]

/-- `Buffer.from(s).toString('base64')`: base64 over the UTF-8 bytes. -/
def base64Encode (s : String) : String :=
  String.mk (b64Chunks (s.data.flatMap utf8Bytes))

/-- `AdaptivePatternLearner.getProjectFingerprint`: `none` models any
failure to read or parse `package.json` (the catch branch).  Otherwise the
fingerprint is the first 20 characters of the base64 of
`sortedDepNames.join(',') + '|' + sortedDevDepNames.join(',')`. -/
def getProjectFingerprint (pkg : Option PackageJson) : String :=
  match pkg with
  | none => "unknown"
  | some p =>
    let deps := String.intercalate "," (sortedDepNames p.dependencies)
    let devDeps := String.intercalate "," (sortedDepNames p.devDependencies)
    String.mk ((base64Encode (deps ++ "|" ++ devDeps)).data.take 20)

/-- The staleness test of `loadLearnedPatterns`:
`data.projectFingerprint !== currentFingerprint`. -/
def fingerprintChanged (stored current : String) : Bool :=
  stored ≠ current

/-- A concrete stored test case used in example stores. -/
def caseA : TestCase :=
  { id := "DASH-001", title := "Recent trades visible", description := "",
    priority := "high", category := "functional", status := "active",
    addedIn := "1.0.0", lastModified := "1.0.0",
    steps := ["Navigate to dashboard"], expectedResult := "List is visible",
    tags := [], changes := none }

/-- A concrete prior store state holding exactly `caseA` at version `1.0.0`. -/
def priorDoc : TestDoc :=
  { version := "1.0.0", lastUpdated := "2024-01-01T00:00:00.000Z",
    pageName := some "dash", requirements := none,
    testCases := [caseA], metadata := zeroMetadata }

/-- A concrete updated document holding one case that is absent from
`priorDoc` but carries status `active` (not `new`). -/
def updatedActiveDoc : TestDoc :=
  { version := "1.0.1", lastUpdated := "2024-01-02T00:00:00.000Z",
    pageName := some "dash", requirements := none,
    testCases := [{ caseA with id := "DASH-777", status := "active" }],
    metadata := zeroMetadata }

/-- The parsed reply contains a case object carrying the (truthy) id `id`. -/
def replyKeepsId (reply : ParsedReply) (id : String) : Prop :=
  ∃ elems c, reply = ParsedReply.array elems ∧ JElem.jobj c ∈ elems ∧
    c.id = some id ∧ id ≠ ""

/-- A concrete regex engine for examples: the pattern `(` fails to compile,
every other pattern compiles and matches the whole content once. -/
def rxEx : RegexEngine :=
  fun r => if r = "(" then none else some (fun content => [content])

/-! ## Helper lemmas -/

theorem digitChar_isDigit (n : Nat) (h : n < 10) : (digitChar n).isDigit = true := by
  interval_cases n <;> decide

theorem digitChar_ne_dot (n : Nat) (h : n < 10) : digitChar n ≠ '.' := by
  interval_cases n <;> decide

theorem digitChar_toNat (n : Nat) (h : n < 10) : (digitChar n).toNat = 48 + n := by
  interval_cases n <;> decide

theorem natDigsAux_ne_nil (fuel n : Nat) (h : n < fuel) : natDigsAux fuel n ≠ [] := by
  cases fuel with
  | zero => omega
  | succ f =>
    unfold natDigsAux
    split
    · simp
    · simp

theorem natDigsAux_all_digit (fuel : Nat) : ∀ n, n < fuel →
    ∀ c ∈ natDigsAux fuel n, c.isDigit = true := by
  induction fuel with
  | zero => intro n h; omega
  | succ f ih =>
    intro n h c hc
    unfold natDigsAux at hc
    split at hc
    · simp at hc
      subst hc
      exact digitChar_isDigit n (by omega)
    · rename_i h10
      rcases List.mem_append.mp hc with h1 | h2
      · exact ih (n / 10) (by omega) c h1
      · simp at h2
        subst h2
        exact digitChar_isDigit (n % 10) (by omega)

theorem natDigsAux_foldl (fuel : Nat) : ∀ n a, n < fuel →
    (natDigsAux fuel n).foldl (fun m c => m * 10 + (c.toNat - 48)) a =
      a * 10 ^ (natDigsAux fuel n).length + n := by
  induction fuel with
  | zero => intro n a h; omega
  | succ f ih =>
    intro n a h
    unfold natDigsAux
    split
    · rename_i h10
      simp only [List.foldl, List.length_cons, List.length_nil, zero_add, pow_one,
        digitChar_toNat n h10]
      omega
    · rename_i h10
      push_neg at h10
      have hlt : n / 10 < f := by omega
      rw [List.foldl_append]
      simp [List.foldl, digitChar_toNat (n % 10) (by omega)]
      rw [ih (n / 10) a hlt]
      rw [pow_succ]
      have : n / 10 * 10 + n % 10 = n := by omega
      ring_nf
      omega

theorem string_mk_data (l : List Char) : (String.mk l).data = l := rfl

theorem jsNumber_natStr (n : Nat) : jsNumber (natStr n) = some n := by
  have h1 : natDigsAux (n + 1) n ≠ [] := natDigsAux_ne_nil (n + 1) n (by omega)
  have h2 : (natDigsAux (n + 1) n).all Char.isDigit = true := by
    rw [List.all_eq_true]
    intro c hc
    exact natDigsAux_all_digit (n + 1) n (by omega) c hc
  unfold jsNumber natStr
  simp only [string_mk_data]
  rw [if_pos ⟨h1, h2⟩, natDigsAux_foldl (n + 1) n 0 (by omega)]
  simp

theorem splitDotAux_ne_nil (l : List Char) : splitDotAux l ≠ [] := by
  induction l with
  | nil => simp [splitDotAux]
  | cons c rest ih =>
    unfold splitDotAux
    split
    · simp
    · simp

theorem splitDotAux_no_dot (l : List Char) (h : '.' ∉ l) : splitDotAux l = [l] := by
  induction l with
  | nil => rfl
  | cons c rest ih =>
    have hc : c ≠ '.' := by
      intro hh
      exact h (hh ▸ List.mem_cons_self c rest)
    have hr : '.' ∉ rest := fun hh => h (List.mem_cons_of_mem c hh)
    conv_lhs => rw [splitDotAux]
    rw [if_neg hc, ih hr]
    simp

theorem splitDotAux_append (l rest : List Char) (h : '.' ∉ l) :
    splitDotAux (l ++ '.' :: rest) = l :: splitDotAux rest := by
  induction l with
  | nil => simp [splitDotAux]
  | cons c l2 ih =>
    have hc : c ≠ '.' := by
      intro hh
      exact h (hh ▸ List.mem_cons_self c l2)
    have hl : '.' ∉ l2 := fun hh => h (List.mem_cons_of_mem c hh)
    simp only [List.cons_append]
    conv_lhs => rw [splitDotAux]
    rw [if_neg hc, ih hl]
    simp

theorem natStr_no_dot (n : Nat) : '.' ∉ (natStr n).data := by
  intro h
  have := natDigsAux_all_digit (n + 1) n (by omega) '.' h
  simp [Char.isDigit] at this

theorem splitVer_render (a b c : Nat) :
    splitVer (natStr a ++ "." ++ natStr b ++ "." ++ natStr c) =
      [natStr a, natStr b, natStr c] := by
  unfold splitVer
  have hdata : (natStr a ++ "." ++ natStr b ++ "." ++ natStr c).data =
      (natStr a).data ++ '.' :: ((natStr b).data ++ '.' :: (natStr c).data) := by
    simp [String.data_append]
  rw [hdata]
  rw [splitDotAux_append _ _ (natStr_no_dot a)]
  rw [splitDotAux_append _ _ (natStr_no_dot b)]
  rw [splitDotAux_no_dot _ (natStr_no_dot c)]
  simp [string_mk_data]

theorem parseVer_elim (s : String) (M m p : Nat) (h : parseVer s = some (M, m, p)) :
    ∃ a b c, splitVer s = [a, b, c] ∧ jsNumber a = some M ∧ jsNumber b = some m ∧
      jsNumber c = some p := by
  unfold parseVer at h
  split at h
  · rename_i a b c heq
    refine ⟨a, b, c, heq, ?_⟩
    split at h
    · rename_i x y z hx hy hz
      refine ⟨?_, ?_, ?_⟩ <;> simp_all
    · exact absurd h (by simp)
  · exact absurd h (by simp)

theorem parseVer_ne_empty (s : String) (t : Nat × Nat × Nat) (h : parseVer s = some t) :
    s ≠ "" := by
  intro he
  subst he
  simp [parseVer, splitVer, splitDotAux] at h

theorem getNextVersion_render (s : String) (M m p : Nat)
    (h : parseVer s = some (M, m, p)) (h0 : s ≠ "0.0.0") :
    getNextVersion s = natStr M ++ "." ++ natStr m ++ "." ++ natStr (p + 1) := by
  obtain ⟨a, b, c, hs, ha, hb, hc⟩ := parseVer_elim s M m p h
  unfold getNextVersion
  rw [if_neg (by push_neg; exact ⟨parseVer_ne_empty s _ h, h0⟩)]
  rw [hs]
  simp [verComp, ha, hb, hc, showJsNum]

theorem compareVersions_next (s : String) (M m p : Nat)
    (h : parseVer s = some (M, m, p)) :
    compareVersions s (getNextVersion s) = some (-1) := by
  by_cases h0 : s = "0.0.0"
  · subst h0
    decide
  · have hren := getNextVersion_render s M m p h h0
    obtain ⟨a, b, c, hs, ha, hb, hc⟩ := parseVer_elim s M m p h
    unfold compareVersions
    rw [if_neg (parseVer_ne_empty s _ h)]
    have hne : natStr M ++ "." ++ natStr m ++ "." ++ natStr (p + 1) ≠ "" := by
      intro he
      have : (natStr M ++ "." ++ natStr m ++ "." ++ natStr (p + 1)).data = [] := by
        rw [he]
      simp [String.data_append] at this
    rw [hren, if_neg hne, hs, splitVer_render]
    simp [verComp, ha, hb, hc, jsNumber_natStr, verCompStep]

theorem jsOrS_ne_empty (o : Option String) (d : String) (hd : d ≠ "") :
    jsOrS o d ≠ "" := by
  cases o with
  | none => exact hd
  | some s =>
    by_cases hs : s = ""
    · simp only [jsOrS, hs, if_pos]
      exact hd
    · intro hcon
      simp [jsOrS, hs] at hcon

theorem parseAndValidate_malformed (reply : ParsedReply) (existing : TestDoc)
    (h : wellFormedReply reply = false) :
    parseAndValidateTestCases reply existing = fallbackCases existing := by
  cases reply with
  | parseFail => rfl
  | notArray => rfl
  | array elems =>
    have h2 : elems.all isObjElem = false := by simpa [wellFormedReply] using h
    simp [parseAndValidateTestCases, h2]

theorem updateCore_testCases (pageName : String) (existing : TestDoc) (newReq : RawReq)
    (reply : ParsedReply) (now : String) :
    (updateTestCasesCore pageName existing newReq reply now).testCases =
      parseAndValidateTestCases reply existing := rfl

theorem updateCore_version (pageName : String) (existing : TestDoc) (newReq : RawReq)
    (reply : ParsedReply) (now : String) :
    (updateTestCasesCore pageName existing newReq reply now).version =
      getNextVersion existing.version := rfl

theorem calcMeta_new (existing updated : TestDoc) :
    (calculateMetadata existing updated).newTestCases =
      (updated.testCases.filter fun tc => tc.status = "new" ∨
        ¬ tc.id ∈ existing.testCases.map (·.id)).length := rfl

theorem calcMeta_updated (existing updated : TestDoc) :
    (calculateMetadata existing updated).updatedTestCases =
      (updated.testCases.filter fun tc => tc.status = "updated" ∧
        tc.id ∈ existing.testCases.map (·.id)).length := rfl

theorem calcMeta_changes (existing updated : TestDoc) :
    (calculateMetadata existing updated).changesSummary =
      (updated.testCases.filter fun tc => truthyChanges tc.changes).map
        (fun tc => tc.id ++ ": " ++ tc.changes.getD "") := rfl

/-! ## Claims -/

/-- Claim C5: `getNextVersion` maps version `0.0.0` (or a missing version)
to `1.0.0` and every other version `major.minor.patch` to
`major.minor.(patch+1)`; consequently two consecutively produced versions
compare strictly increasing: `compareVersions` of a produced version and
its successor is negative. -/
theorem c5_version_bump_monotone :
    (∀ v : String, v = "" ∨ v = "0.0.0" → getNextVersion v = "1.0.0") ∧
    (∀ v M m p, parseVer v = some (M, m, p) → v ≠ "0.0.0" →
      getNextVersion v = natStr M ++ "." ++ natStr m ++ "." ++ natStr (p + 1)) ∧
    (∀ v M m p, parseVer v = some (M, m, p) →
      ∃ c, compareVersions v (getNextVersion v) = some c ∧ c < 0) := by
  refine ⟨?_, ?_, ?_⟩
  · intro v hv
    unfold getNextVersion
    rw [if_pos hv]
  · intro v M m p h h0
    exact getNextVersion_render v M m p h h0
  · intro v M m p h
    exact ⟨-1, compareVersions_next v M m p h, by norm_num⟩

/-- Witness for C5 at the concrete versions `0.0.0` and `2.1.3`. -/
theorem c5_witness :
    getNextVersion "0.0.0" = "1.0.0" ∧
    getNextVersion "2.1.3" = natStr 2 ++ "." ++ natStr 1 ++ "." ++ natStr 4 ∧
    ∃ c, compareVersions "2.1.3" (getNextVersion "2.1.3") = some c ∧ c < 0 :=
  ⟨c5_version_bump_monotone.1 "0.0.0" (Or.inr rfl),
   c5_version_bump_monotone.2.1 "2.1.3" 2 1 3 (by decide) (by decide),
   c5_version_bump_monotone.2.2 "2.1.3" 2 1 3 (by decide)⟩

/-- Claim C9 (implicit): loading the store is total with a sentinel — on a
missing/unreadable file or on unparseable content, `loadExistingTestCases`
returns the sentinel document with version `0.0.0`, no test cases, empty
requirements and zeroed metadata (and, being a total function, it never
raises). -/
theorem c9_load_total_sentinel :
    ∀ (pageName now : String) (readContent : Option String)
      (parseDoc : String → Option TestDoc),
      (readContent = none ∨ ∃ c, readContent = some c ∧ parseDoc c = none) →
      loadExistingTestCases pageName now readContent parseDoc = sentinelDoc pageName now ∧
      (loadExistingTestCases pageName now readContent parseDoc).version = "0.0.0" ∧
      (loadExistingTestCases pageName now readContent parseDoc).testCases = [] ∧
      (loadExistingTestCases pageName now readContent parseDoc).requirements = none ∧
      (loadExistingTestCases pageName now readContent parseDoc).metadata = zeroMetadata := by
  intro pageName now readContent parseDoc h
  have hs : loadExistingTestCases pageName now readContent parseDoc =
      sentinelDoc pageName now := by
    rcases h with h | ⟨c, hc, hp⟩
    · subst h
      rfl
    · subst hc
      simp [loadExistingTestCases, hp]
  exact ⟨hs, by rw [hs]; rfl, by rw [hs]; rfl, by rw [hs]; rfl, by rw [hs]; rfl⟩

/-- Witness for C9: a present but unparseable document yields the sentinel. -/
theorem c9_witness :
    loadExistingTestCases "dash" "t0" (some "not json") (fun _ => none) =
      sentinelDoc "dash" "t0" ∧
    (loadExistingTestCases "dash" "t0" (some "not json") (fun _ => none)).version = "0.0.0" :=
  ⟨(c9_load_total_sentinel "dash" "t0" (some "not json") (fun _ => none)
      (Or.inr ⟨"not json", rfl, rfl⟩)).1,
   (c9_load_total_sentinel "dash" "t0" (some "not json") (fun _ => none)
      (Or.inr ⟨"not json", rfl, rfl⟩)).2.1⟩

/-- Claim C2: fallback safety — on any oracle reply that does not parse as a
well-formed list of case objects, the new document re-emits the previous
test cases unchanged except for the `lastModified` version bump (so its id
set equals the previous one), the document version is the bumped version,
and the run still completes normally with a produced document (the parse
error is absorbed, never propagated). -/
theorem c2_fallback_safety :
    ∀ (pageName : String) (existing : TestDoc) (newReq : RawReq)
      (reply : ParsedReply) (now : String),
      wellFormedReply reply = false →
      (updateTestCasesCore pageName existing newReq reply now).testCases =
        existing.testCases.map
          (fun tc => { tc with lastModified := getNextVersion existing.version }) ∧
      (updateTestCasesCore pageName existing newReq reply now).testCases.map (·.id) =
        existing.testCases.map (·.id) ∧
      (updateTestCasesCore pageName existing newReq reply now).version =
        getNextVersion existing.version ∧
      (updateTestCasesRun pageName existing newReq true (some reply) now).2 =
        some (updateTestCasesCore pageName existing newReq reply now) := by
  intro pageName existing newReq reply now h
  have h1 : (updateTestCasesCore pageName existing newReq reply now).testCases =
      existing.testCases.map
        (fun tc => { tc with lastModified := getNextVersion existing.version }) := by
    rw [updateCore_testCases, parseAndValidate_malformed reply existing h]
    rfl
  refine ⟨h1, ?_, rfl, ?_⟩
  · rw [h1, List.map_map]
    rfl
  · unfold updateTestCasesRun
    simp

/-- Witness for C2: a reply whose parse fails re-emits the prior ids. -/
theorem c2_witness :
    wellFormedReply ParsedReply.parseFail = false ∧
    (updateTestCasesCore "dash" priorDoc {} ParsedReply.parseFail "t1").testCases.map (·.id) =
      priorDoc.testCases.map (·.id) :=
  ⟨by decide,
   (c2_fallback_safety "dash" priorDoc {} ParsedReply.parseFail "t1" (by decide)).2.1⟩

theorem validateAll_keeps (pn : Option String) (ver : String) (idv : String) :
    ∀ (elems : List JElem) (k : Nat) (c : RawCase), JElem.jobj c ∈ elems →
      c.id = some idv → idv ≠ "" →
      ∃ tc ∈ validateAll pn ver k elems, tc.id = idv := by
  intro elems
  induction elems with
  | nil =>
    intro k c hc
    simp at hc
  | cons e rest ih =>
    intro k c hc hid hne
    rcases List.mem_cons.mp hc with he | hr
    · subst he
      refine ⟨validateCase pn ver k c, by simp [validateAll, elemCase], ?_⟩
      simp [validateCase, hid, jsOrS, hne]
    · obtain ⟨tc, htc, hid2⟩ := ih (k + 1) c hr hid hne
      exact ⟨tc, by simp [validateAll, htc], hid2⟩

/-- Counterexample to C1 as stated: with a prior store holding the case
`DASH-001`, a well-formed oracle reply that is simply the empty list
produces a next version from which `DASH-001` is physically gone — the code
only asks, via the prompt, that the oracle not delete cases, it does not
enforce it. -/
theorem c1_counterexample :
    (∃ tc ∈ priorDoc.testCases, tc.id = "DASH-001") ∧
    ¬ (∃ tc2 ∈ (updateTestCasesCore "dash" priorDoc {} (ParsedReply.array []) "t1").testCases,
        tc2.id = "DASH-001") := by decide

/-- Claim C1, amended: no silent deletion holds on the fallback path and on
compliant replies — if the oracle reply is malformed (the whole prior list
is re-emitted) or contains a case object carrying the prior case's id, then
the produced version contains a test case with that id.  For a well-formed
reply that omits an id, preservation is not enforced by the code. -/
theorem c1_no_silent_deletion_amended :
    ∀ (pageName : String) (existing : TestDoc) (newReq : RawReq)
      (reply : ParsedReply) (now : String) (tc : TestCase),
      tc ∈ existing.testCases →
      (wellFormedReply reply = false ∨ replyKeepsId reply tc.id) →
      ∃ tc2 ∈ (updateTestCasesCore pageName existing newReq reply now).testCases,
        tc2.id = tc.id := by
  intro pageName existing newReq reply now tc htc h
  rw [updateCore_testCases]
  rcases h with h | ⟨elems, c, hre, hmem, hid, hne⟩
  · rw [parseAndValidate_malformed reply existing h]
    exact ⟨{ tc with lastModified := getNextVersion existing.version },
      List.mem_map_of_mem _ htc, rfl⟩
  · subst hre
    by_cases hall : elems.all isObjElem = true
    · simp only [parseAndValidateTestCases, hall, if_true]
      exact validateAll_keeps existing.pageName existing.version tc.id elems 0 c hmem hid hne
    · have hf : elems.all isObjElem = false := by
        revert hall
        cases elems.all isObjElem <;> simp
      rw [parseAndValidate_malformed _ _ (by simpa [wellFormedReply] using hf)]
      exact ⟨{ tc with lastModified := getNextVersion existing.version },
        List.mem_map_of_mem _ htc, rfl⟩

/-- Witness for the amended C1: a reply that re-lists `DASH-001` (marking it
deprecated) keeps it present in the next version. -/
theorem c1_witness :
    ∃ tc2 ∈ (updateTestCasesCore "dash" priorDoc {}
      (ParsedReply.array [JElem.jobj { id := some "DASH-001", status := some "deprecated" }])
      "t1").testCases, tc2.id = caseA.id :=
  c1_no_silent_deletion_amended "dash" priorDoc {}
    (ParsedReply.array [JElem.jobj { id := some "DASH-001", status := some "deprecated" }])
    "t1" caseA (by decide)
    (Or.inr ⟨[JElem.jobj { id := some "DASH-001", status := some "deprecated" }],
      { id := some "DASH-001", status := some "deprecated" }, rfl, by decide, rfl, by decide⟩)

/-- Counterexample to C4 as stated: a case present only in the new list but
with status `active` is counted by the code's `newTestCases` (the code uses
status-new OR id-absent), while the claim's formula (ids present only in
new that have status new) counts zero. -/
theorem c4_counterexample :
    (calculateMetadata priorDoc updatedActiveDoc).newTestCases ≠
      claimNewCount priorDoc updatedActiveDoc := by decide

/-- Claim C4, amended: `newCount` counts the new-list cases whose status is
`new` OR whose id is absent from the old list; `updatedCount` counts those
with status `updated` AND id present in the old list; `deprecatedCount`
counts status `deprecated`; `changesSummary` collects `id: changes` for the
cases with a non-empty `changes` string, in list order. -/
theorem c4_diff_metadata_amended :
    ∀ existing updated : TestDoc,
      (calculateMetadata existing updated).totalTestCases = updated.testCases.length ∧
      (calculateMetadata existing updated).newTestCases =
        (updated.testCases.filter fun tc => tc.status = "new" ∨
          ¬ ∃ tc2 ∈ existing.testCases, tc2.id = tc.id).length ∧
      (calculateMetadata existing updated).updatedTestCases =
        (updated.testCases.filter fun tc => tc.status = "updated" ∧
          ∃ tc2 ∈ existing.testCases, tc2.id = tc.id).length ∧
      (calculateMetadata existing updated).deprecatedTestCases =
        (updated.testCases.filter fun tc => tc.status = "deprecated").length ∧
      (calculateMetadata existing updated).changesSummary =
        (updated.testCases.filter fun tc => tc.changes ≠ none ∧ tc.changes ≠ some "").map
          fun tc => tc.id ++ ": " ++ tc.changes.getD "" := by
  intro existing updated
  refine ⟨rfl, ?_, ?_, rfl, ?_⟩
  · rw [calcMeta_new]
    congr 1
    apply List.filter_congr
    intro tc _
    simp [List.mem_map]
  · rw [calcMeta_updated]
    congr 1
    apply List.filter_congr
    intro tc _
    simp [List.mem_map]
  · rw [calcMeta_changes]
    congr 1
    apply List.filter_congr
    intro tc _
    cases hc : tc.changes with
    | none => simp [truthyChanges, hc]
    | some s => simp [truthyChanges, hc]

/-- Counterexample to C7 as stated: an oracle case that explicitly supplies
`steps: []` is stored with an empty steps list — `Array.isArray([])` is
true, so the placeholder is not substituted. -/
theorem c7_counterexample :
    ∃ tc ∈ (updateTestCasesCore "dash" (sentinelDoc "dash" "t0") {}
      (ParsedReply.array [JElem.jobj { steps := some [] }]) "t1").testCases,
      tc.steps = [] := by decide

/-- Claim C7, amended: every null/missing field is replaced by its
documented default (`priority=medium`, `category=functional`, `status=new`,
placeholder steps when the supplied value is not an array, placeholder
expectedResult when absent); the stored `expectedResult` is always
non-empty, and the stored steps list is non-empty unless the reply
explicitly supplied an empty array, which is stored as-is. -/
theorem c7_default_normalization_amended :
    ∀ (pn : Option String) (ver : String) (i : Nat) (c : RawCase),
      ((c.priority = none ∨ c.priority = some "") →
        (validateCase pn ver i c).priority = "medium") ∧
      ((c.category = none ∨ c.category = some "") →
        (validateCase pn ver i c).category = "functional") ∧
      ((c.status = none ∨ c.status = some "") →
        (validateCase pn ver i c).status = "new") ∧
      (c.steps = none → (validateCase pn ver i c).steps = ["Add test steps"]) ∧
      ((c.expectedResult = none ∨ c.expectedResult = some "") →
        (validateCase pn ver i c).expectedResult = "Define expected result") ∧
      (validateCase pn ver i c).expectedResult ≠ "" ∧
      (c.steps ≠ some [] → (validateCase pn ver i c).steps ≠ []) := by
  intro pn ver i c
  refine ⟨?_, ?_, ?_, ?_, ?_, ?_, ?_⟩
  · rintro (h | h) <;> simp [validateCase, h, jsOrS]
  · rintro (h | h) <;> simp [validateCase, h, jsOrS]
  · rintro (h | h) <;> simp [validateCase, h, jsOrS]
  · intro h
    simp [validateCase, h]
  · rintro (h | h) <;> simp [validateCase, h, jsOrS]
  · exact jsOrS_ne_empty _ _ (by decide)
  · intro h
    cases hs : c.steps with
    | none => simp [validateCase, hs]
    | some l =>
      cases l with
      | nil => exact absurd hs h
      | cons a t => simp [validateCase, hs]

/-- Witness for the amended C7 at the all-absent raw case. -/
theorem c7_witness :
    (validateCase (some "dash") "1.0.0" 0 {}).priority = "medium" ∧
    (validateCase (some "dash") "1.0.0" 0 {}).steps = ["Add test steps"] ∧
    (validateCase (some "dash") "1.0.0" 0 {}).expectedResult ≠ "" :=
  ⟨(c7_default_normalization_amended (some "dash") "1.0.0" 0 {}).1 (Or.inl rfl),
   (c7_default_normalization_amended (some "dash") "1.0.0" 0 {}).2.2.2.1 rfl,
   (c7_default_normalization_amended (some "dash") "1.0.0" 0 {}).2.2.2.2.2.1⟩

/-- Claim C3: backup-before-overwrite.  If the existing test-case list is
non-empty and the backup write fails, the run aborts after only the read,
producing no document and no writes; and whenever the current document is
written with a non-empty prior list, a backup of exactly the prior document
under the timestamped backup name occurs strictly earlier in the trace,
preceded only by the read. -/
theorem c3_backup_before_overwrite :
    ∀ (pageName : String) (existing : TestDoc) (newReq : RawReq) (backupOk : Bool)
      (oracleReply : Option ParsedReply) (now : String),
      (existing.testCases ≠ [] → backupOk = false →
        updateTestCasesRun pageName existing newReq backupOk oracleReply now =
          ([FsEvent.readCurrentDoc], none)) ∧
      (∀ d, existing.testCases ≠ [] →
        FsEvent.writeCurrentDoc d ∈
          (updateTestCasesRun pageName existing newReq backupOk oracleReply now).1 →
        ∃ pre post,
          (updateTestCasesRun pageName existing newReq backupOk oracleReply now).1 =
            pre ++ FsEvent.writeBackup (backupFileName pageName now) existing :: post ∧
          FsEvent.writeCurrentDoc d ∈ post ∧
          ∀ e ∈ pre, e = FsEvent.readCurrentDoc) := by
  intro pageName existing newReq backupOk oracleReply now
  constructor
  · intro hne hbk
    subst hbk
    have hlen : existing.testCases.length > 0 := List.length_pos.mpr hne
    unfold updateTestCasesRun
    rw [if_pos ⟨hlen, by simp⟩]
  · intro d hne hmem
    have hlen : existing.testCases.length > 0 := List.length_pos.mpr hne
    by_cases hbk : backupOk = true
    · subst hbk
      cases oracleReply with
      | none =>
        exfalso
        simp [updateTestCasesRun, hlen] at hmem
      | some reply =>
        refine ⟨[FsEvent.readCurrentDoc],
          [FsEvent.callOracle,
           FsEvent.writeCurrentDoc (updateTestCasesCore pageName existing newReq reply now),
           FsEvent.writeVersionSnapshot
             (pageName ++ "-v" ++
               (updateTestCasesCore pageName existing newReq reply now).version ++ ".json")
             (updateTestCasesCore pageName existing newReq reply now),
           FsEvent.writeRequirements], ?_, ?_, ?_⟩
        · simp [updateTestCasesRun, hlen]
        · simp [updateTestCasesRun, hlen] at hmem
          simp [hmem]
        · intro e he
          simpa using he
    · have hbf : backupOk = false := by
        revert hbk
        cases backupOk <;> simp
      subst hbf
      exfalso
      have h1 : updateTestCasesRun pageName existing newReq false oracleReply now =
          ([FsEvent.readCurrentDoc], none) := by
        unfold updateTestCasesRun
        rw [if_pos ⟨hlen, by simp⟩]
      rw [h1] at hmem
      simp at hmem

/-- Witness for C3: a run over `priorDoc` with a succeeding backup write
shows the backup-before-current-write ordering concretely. -/
theorem c3_witness :
    ∃ pre post,
      (updateTestCasesRun "dash" priorDoc {} true (some ParsedReply.parseFail) "t1").1 =
        pre ++ FsEvent.writeBackup (backupFileName "dash" "t1") priorDoc :: post ∧
      FsEvent.writeCurrentDoc
        (updateTestCasesCore "dash" priorDoc {} ParsedReply.parseFail "t1") ∈ post ∧
      ∀ e ∈ pre, e = FsEvent.readCurrentDoc :=
  (c3_backup_before_overwrite "dash" priorDoc {} true (some ParsedReply.parseFail) "t1").2
    (updateTestCasesCore "dash" priorDoc {} ParsedReply.parseFail "t1")
    (by decide) (by decide)

theorem dedupSeen_congr (l : List String) :
    ∀ s1 s2, (∀ x, x ∈ s1 ↔ x ∈ s2) → dedupSeen s1 l = dedupSeen s2 l := by
  induction l with
  | nil =>
    intro s1 s2 h
    rfl
  | cons a t ih =>
    intro s1 s2 h
    by_cases ha : a ∈ s1
    · simp only [dedupSeen, if_pos ha, if_pos ((h a).mp ha)]
      exact ih s1 s2 h
    · simp only [dedupSeen, if_neg ha, if_neg (fun hx => ha ((h a).mpr hx))]
      refine congrArg (a :: ·) (ih _ _ ?_)
      intro x
      simp only [List.mem_cons, h x]

theorem dedupSeen_append (m : List String) :
    ∀ (l seen : List String),
      dedupSeen seen (l ++ m) = dedupSeen seen l ++ dedupSeen (l ++ seen) m := by
  intro l
  induction l with
  | nil =>
    intro seen
    simp [dedupSeen]
  | cons a t ih =>
    intro seen
    by_cases ha : a ∈ seen
    · simp only [List.cons_append, dedupSeen, if_pos ha, List.append_eq]
      rw [ih seen]
      refine congrArg (dedupSeen seen t ++ ·) (dedupSeen_congr m _ _ ?_)
      intro x
      simp only [List.mem_append, List.mem_cons]
      constructor
      · tauto
      · rintro (rfl | h | h)
        · exact Or.inr ha
        · tauto
        · tauto
    · simp only [List.cons_append, dedupSeen, if_neg ha, List.append_eq]
      rw [ih (a :: seen)]
      refine congrArg (fun z => a :: (dedupSeen (a :: seen) t ++ z)) ?_
      refine dedupSeen_congr m _ _ ?_
      intro x
      simp only [List.mem_append, List.mem_cons]
      tauto

theorem dedupSeen_nil_of_subset (l : List String) :
    ∀ seen, (∀ x ∈ l, x ∈ seen) → dedupSeen seen l = [] := by
  induction l with
  | nil =>
    intro seen h
    rfl
  | cons a t ih =>
    intro seen h
    simp only [dedupSeen, if_pos (h a (List.mem_cons_self a t))]
    exact ih seen fun x hx => h x (List.mem_cons_of_mem a hx)

theorem jsSetDedup_dup (A X B C : List String) :
    jsSetDedup (A ++ X ++ B ++ X ++ C) = jsSetDedup (A ++ X ++ B ++ C) := by
  unfold jsSetDedup
  have hsub : ∀ x ∈ X, x ∈ A ++ X ++ B ++ ([] : List String) := by
    intro x hx
    simp only [List.mem_append]
    tauto
  calc dedupSeen [] (A ++ X ++ B ++ X ++ C)
      = dedupSeen [] ((A ++ X ++ B) ++ (X ++ C)) := by rw [List.append_assoc (A ++ X ++ B)]
    _ = dedupSeen [] (A ++ X ++ B) ++ dedupSeen ((A ++ X ++ B) ++ []) (X ++ C) :=
        dedupSeen_append (X ++ C) (A ++ X ++ B) []
    _ = dedupSeen [] (A ++ X ++ B) ++
          (dedupSeen ((A ++ X ++ B) ++ []) X ++ dedupSeen (X ++ ((A ++ X ++ B) ++ [])) C) := by
        rw [dedupSeen_append C X ((A ++ X ++ B) ++ [])]
    _ = dedupSeen [] (A ++ X ++ B) ++ dedupSeen (X ++ ((A ++ X ++ B) ++ [])) C := by
        rw [dedupSeen_nil_of_subset X _ hsub]
        simp
    _ = dedupSeen [] (A ++ X ++ B) ++ dedupSeen ((A ++ X ++ B) ++ []) C := by
        refine congrArg _ (dedupSeen_congr C _ _ ?_)
        intro x
        simp only [List.mem_append]
        tauto
    _ = dedupSeen [] ((A ++ X ++ B) ++ C) := (dedupSeen_append C (A ++ X ++ B) []).symm
    _ = dedupSeen [] (A ++ X ++ B ++ C) := rfl

theorem dedupeClean_dup (A X B C : List String) :
    dedupeClean (A ++ X ++ B ++ X ++ C) = dedupeClean (A ++ X ++ B ++ C) := by
  unfold dedupeClean
  rw [jsSetDedup_dup]

theorem concatField_append (f : PartialReq → Option (List String)) (a b : List PartialReq) :
    concatField f (a ++ b) = concatField f a ++ concatField f b := by
  simp [concatField, List.filterMap_append]

theorem concatField_cons (f : PartialReq → Option (List String)) (s : PartialReq)
    (t : List PartialReq) :
    concatField f (s :: t) = (f s).getD [] ++ concatField f t := by
  cases h : f s <;> simp [concatField, List.filterMap_cons, h]

/-- Claim C6: the requirements merge deduplicates each of the five
requirement field lists by exact string equality preserving first-seen
order and dropping blank entries, so merging a list in which the same
partial record occurs twice yields the same field lists as merging the
list in which it occurs once. -/
theorem c6_merge_idempotent :
    ∀ (now : String) (l1 l2 l3 : List PartialReq) (s : PartialReq),
      mergedFields (mergeRequirements now (l1 ++ s :: l2 ++ s :: l3)) =
        mergedFields (mergeRequirements now (l1 ++ s :: l2 ++ l3)) := by
  intro now l1 l2 l3 s
  have key : ∀ f : PartialReq → Option (List String),
      dedupeClean (concatField f (l1 ++ s :: l2 ++ s :: l3)) =
        dedupeClean (concatField f (l1 ++ s :: l2 ++ l3)) := by
    intro f
    have h1 : concatField f (l1 ++ s :: l2 ++ s :: l3) =
        concatField f l1 ++ (f s).getD [] ++ concatField f l2 ++ (f s).getD [] ++
          concatField f l3 := by
      simp [concatField_append, concatField_cons, List.append_assoc]
    have h2 : concatField f (l1 ++ s :: l2 ++ l3) =
        concatField f l1 ++ (f s).getD [] ++ concatField f l2 ++ concatField f l3 := by
      simp [concatField_append, concatField_cons, List.append_assoc]
    rw [h1, h2]
    exact dedupeClean_dup _ _ _ _
  simp only [mergedFields, mergeRequirements]
  rw [key, key, key, key, key]

theorem applyPatternRule_skip (rx : RegexEngine) (content filePath : String)
    (acc : List PatternHit × List String) (p : PatternRule) (h : rx p.regex = none) :
    applyPatternRule rx content filePath acc p = acc := by
  simp [applyPatternRule, h]

theorem applyPatternRules_go (rx : RegexEngine) (content filePath : String) :
    ∀ (rules : List PatternRule) (acc : List PatternHit × List String),
      rules.foldl (applyPatternRule rx content filePath) acc =
        (rules.filter fun p => (rx p.regex).isSome).foldl
          (applyPatternRule rx content filePath) acc := by
  intro rules
  induction rules with
  | nil =>
    intro acc
    rfl
  | cons p t ih =>
    intro acc
    by_cases hp : (rx p.regex).isSome = true
    · simp [List.filter_cons, hp, List.foldl_cons, ih]
    · have hnone : rx p.regex = none := by
        revert hp
        cases rx p.regex <;> simp
      simp [List.filter_cons, hp, List.foldl_cons, ih,
        applyPatternRule_skip rx content filePath acc p hnone]

theorem applyPatternRule_snd (rx : RegexEngine) (content filePath : String)
    (acc : List PatternHit × List String) (p : PatternRule) :
    (applyPatternRule rx content filePath acc p).2 = acc.2 := by
  unfold applyPatternRule
  cases rx p.regex with
  | none => simp
  | some m =>
    by_cases hl : (m content).length > 0
    · simp [hl]
    · simp [hl]

theorem applyPatternRules_snd_acc (rx : RegexEngine) (content filePath : String) :
    ∀ (rules : List PatternRule) (acc : List PatternHit × List String),
      (rules.foldl (applyPatternRule rx content filePath) acc).2 = acc.2 := by
  intro rules
  induction rules with
  | nil =>
    intro acc
    rfl
  | cons p t ih =>
    intro acc
    rw [List.foldl_cons, ih, applyPatternRule_snd]

theorem applyPatternRules_warnings (rx : RegexEngine) (content filePath : String)
    (rules : List PatternRule) :
    (applyPatternRules rx content filePath rules).2 = [] :=
  applyPatternRules_snd_acc rx content filePath rules ([], [])

/-- Claim C8, amended: each pattern rule is applied independently; a rule
whose regex fails to compile is skipped silently — the catch branch logs
nothing, so the warning output is always empty — and the remaining rules
still contribute exactly the matches they would contribute alone; no
compilation failure makes the (total) analysis raise. -/
theorem c8_invalid_rules_skipped_amended :
    ∀ (rx : RegexEngine) (content filePath : String) (rules : List PatternRule)
      (learned : List (String × List PatternRule)),
      applyPatternRules rx content filePath rules =
        applyPatternRules rx content filePath
          (rules.filter fun p => (rx p.regex).isSome) ∧
      (applyPatternRules rx content filePath rules).2 = [] ∧
      (analyzeCodeWithLearnedPatterns rx content filePath learned).2 = [] := by
  intro rx content filePath rules learned
  refine ⟨?_, applyPatternRules_warnings rx content filePath rules, ?_⟩
  · unfold applyPatternRules
    exact applyPatternRules_go rx content filePath rules ([], [])
  · unfold analyzeCodeWithLearnedPatterns
    simp [applyPatternRules_warnings]

/-- Counterexample to C8 as stated: with one non-compiling rule and one
matching rule, the analysis skips the bad rule and keeps the good rule's
hit, but produces no warning at all — the claim's "with a warning" does not
hold of the code, whose catch branch is empty. -/
theorem c8_counterexample :
    (applyPatternRules rxEx "source text" "f.js"
        [{ name := "bad", regex := "(", confidence := "high" },
         { name := "good", regex := "ok", confidence := "low" }]).1.map (·.pattern) =
      ["good"] ∧
    (applyPatternRules rxEx "source text" "f.js"
        [{ name := "bad", regex := "(", confidence := "high" },
         { name := "good", regex := "ok", confidence := "low" }]).2 = [] := by decide

theorem sortedDepNames_eq (m1 m2 : List (String × String))
    (h1 : (m1.map Prod.fst).Nodup) (h2 : (m2.map Prod.fst).Nodup)
    (h : ∀ x, x ∈ m1.map Prod.fst ↔ x ∈ m2.map Prod.fst) :
    sortedDepNames m1 = sortedDepNames m2 := by
  have hperm : List.Perm (m1.map Prod.fst) (m2.map Prod.fst) :=
    (List.perm_ext_iff_of_nodup h1 h2).mpr h
  have hp : List.Perm (sortedDepNames m1) (sortedDepNames m2) :=
    (List.perm_insertionSort _ _).trans (hperm.trans (List.perm_insertionSort _ _).symm)
  exact List.eq_of_perm_of_sorted hp
    (List.sorted_insertionSort _ _) (List.sorted_insertionSort _ _)

/-- Claim C10 (implicit): the project fingerprint is a function only of the
sorted dependency and dev-dependency names — two packages with equal
dependency-name sets (regardless of versions, order, or other content) get
equal fingerprints; any failure to read or parse yields the constant
`unknown`, and two failed projects compare as unchanged in the staleness
check of `loadLearnedPatterns`. -/
theorem c10_fingerprint_determinism :
    (∀ p1 p2 : PackageJson,
      (p1.dependencies.map Prod.fst).Nodup → (p2.dependencies.map Prod.fst).Nodup →
      (p1.devDependencies.map Prod.fst).Nodup → (p2.devDependencies.map Prod.fst).Nodup →
      (∀ x, x ∈ p1.dependencies.map Prod.fst ↔ x ∈ p2.dependencies.map Prod.fst) →
      (∀ x, x ∈ p1.devDependencies.map Prod.fst ↔ x ∈ p2.devDependencies.map Prod.fst) →
      getProjectFingerprint (some p1) = getProjectFingerprint (some p2)) ∧
    getProjectFingerprint none = "unknown" ∧
    fingerprintChanged (getProjectFingerprint none) (getProjectFingerprint none) = false := by
  refine ⟨?_, rfl, by decide⟩
  intro p1 p2 h1 h2 h3 h4 h5 h6
  simp only [getProjectFingerprint]
  rw [sortedDepNames_eq p1.dependencies p2.dependencies h1 h2 h5,
    sortedDepNames_eq p1.devDependencies p2.devDependencies h3 h4 h6]

/-- Witness for C10: two packages with the same dependency names in
different order and with different version strings share a fingerprint. -/
theorem c10_witness :
    getProjectFingerprint
        (some { dependencies := [("react", "18.0.0"), ("vue", "3.0.0")] }) =
      getProjectFingerprint
        (some { dependencies := [("vue", "0.1.0"), ("react", "99.9.9")] }) :=
  c10_fingerprint_determinism.1
    { dependencies := [("react", "18.0.0"), ("vue", "3.0.0")] }
    { dependencies := [("vue", "0.1.0"), ("react", "99.9.9")] }
    (by decide) (by decide) (by decide) (by decide)
    (by
      intro x
      constructor <;>
        · intro h
          simp at h ⊢
          tauto)
    (by intro x; exact Iff.rfl)
